import Mathlib

/-!
Verification of the nipart Python client protocol layer.

This file gives a shallow embedding of the message-framing and
request/response demultiplexing code of the nipart Python client
(src/python/nipart/client.py, log.py, error.py, cmd.py,
nmstate/state_option.py) and proves properties about it.

Two abstraction levels are modelled, matching the code:
- a byte level (the 4-byte big-endian length prefixed frame read and
  written by NipartIpcConnection.send and the first half of
  NipartIpcConnection.recv, lines 23-37 of client.py), over an explicit
  model of Python blocking socket semantics where a recv call returns at
  most the bytes of the current arrival chunk;
- an envelope level (the match on the decoded reply of
  NipartIpcConnection.recv, lines 38-45 of client.py), over a JSON value
  type, tracking the log entries emitted to the logging sink.
-/

set_option autoImplicit false

/-- JSON values as produced by json.loads in the Python client: null,
booleans, numbers (the client only ever handles integral ones, so Int),
strings, arrays and objects. Objects are association lists in insertion
order, looked up at the first occurrence of a key; every object built by
the client has distinct keys. -/
inductive Json where
  | null : Json
  | bool (b : Bool) : Json
  | num (n : Int) : Json
  | str (s : String) : Json
  | arr (elems : List Json) : Json
  | obj (fields : List (String × Json)) : Json

/-- Python subscription d[key] on a decoded JSON value: defined (some)
exactly when the value is an object holding the key; none models the
KeyError (or TypeError on a non-object) the Python code would raise. -/
def Json.lookup (j : Json) (key : String) : Option Json :=
  match j with
  | .obj fields => (fields.find? (fun p => p.fst == key)).map Prod.snd
  | _ => none

/-- The error value of nipart/error.py: class NipartError(Exception) with
fields kind and msg, and its subclass NipartValueError(NipartError,
ValueError). The subclass carries no extra data, so it is modelled by the
flag isValueError. In the Python code kind and msg are whatever JSON
values were subscripted out of the wire data, hence Json here. -/
structure NipartError where
  isValueError : Bool
  kind : Json
  msg : Json

/-- NipartError.from_dict (error.py lines 21-26): match data[\x22kind\x22]
with the string pattern invalid-argument selecting NipartValueError and a
catch-all selecting NipartError; both read data[\x22msg\x22]. A missing
key is returned as .error with the name of the key whose subscription
raised KeyError, in Python evaluation order. -/
def NipartError.from_dict (data : Json) : Except String NipartError :=
  match data.lookup "kind" with
  | none => .error "kind"
  | some k =>
    match data.lookup "msg" with
    | none => .error "msg"
    | some m =>
      match k with
      | .str "invalid-argument" => .ok ⟨true, k, m⟩
      | _ => .ok ⟨false, k, m⟩

/-- The log entry of nipart/log.py: class NipartLogEntry with fields
source, level, message, each holding whatever JSON value was subscripted
out of the wire data. -/
structure NipartLogEntry where
  source : Json
  level : Json
  message : Json

/-- NipartLogEntry.from_dict (log.py lines 16-17): reads
data[\x22source\x22], data[\x22level\x22], data[\x22message\x22] in that
order; a missing key is returned as .error with its name, modelling the
KeyError. -/
def NipartLogEntry.from_dict (data : Json) : Except String NipartLogEntry :=
  match data.lookup "source" with
  | none => .error "source"
  | some s =>
    match data.lookup "level" with
    | none => .error "level"
    | some l =>
      match data.lookup "message" with
      | none => .error "message"
      | some m => .ok ⟨s, l, m⟩

/-- The three severities of calls NipartLogEntry.emit makes on the Python
logging logger named libnmstate: logger.debug, logger.info and
logger.error. -/
inductive Severity where
  | debug : Severity
  | info : Severity
  | error : Severity
  deriving DecidableEq, Repr

/-- One call made on the logging sink: the logger method chosen
(severity), the message positional argument and the source passed in the
extra keyword argument. -/
structure SinkCall where
  severity : Severity
  message : Json
  source : Json

/-- Python str() of a decoded JSON value, as interpolated by the f-string
in NipartLogEntry.emit. Faithful for the scalar values (string, bool,
null, int); for arrays and objects it returns a placeholder, and no
theorem in this file depends on the rendering of a non-scalar level. -/
def Json.pyStr (j : Json) : String :=
  match j with
  | .null => "None"
  | .bool true => "True"
  | .bool false => "False"
  | .num n => toString n
  | .str s => s
  | .arr _ => "<list>"
  | .obj _ => "<dict>"

/-- NipartLogEntry.emit (log.py lines 19-33): match on self.level with
the five string patterns trace, debug, info, warn, error, each calling
one logger method with the message and the source; the catch-all raises
NipartError(\x22Bug\x22, f\x22unknown log level \x7bself.level\x7d\x22).
Success returns the sink call made; failure returns the raised error. -/
def NipartLogEntry.emit (e : NipartLogEntry) : Except NipartError SinkCall :=
  match e.level with
  | .str "trace" => .ok ⟨Severity.debug, e.message, e.source⟩
  | .str "debug" => .ok ⟨Severity.debug, e.message, e.source⟩
  | .str "info" => .ok ⟨Severity.info, e.message, e.source⟩
  | .str "warn" => .ok ⟨Severity.info, e.message, e.source⟩
  | .str "error" => .ok ⟨Severity.error, e.message, e.source⟩
  | _ => .error ⟨false, Json.str "Bug", Json.str ("unknown log level " ++ e.level.pyStr)⟩

/-- How one call of NipartIpcConnection.recv ends, at the envelope
level. -/
inductive RecvOutcome where
  | returned (data : Json) : RecvOutcome
  | raised (e : NipartError) : RecvOutcome
  | keyError (key : String) : RecvOutcome
  | outOfFrames : RecvOutcome

/-- NipartIpcConnection.recv, demultiplexing loop (client.py lines
38-45), at the envelope level: the input is the stream of already decoded
reply envelopes, in arrival order. Match on reply[\x22kind\x22]: the
string pattern error (NipartError.IPC_KIND) raises
NipartError.from_dict(reply[\x22data\x22]); the string pattern log
(NipartLogEntry.IPC_KIND) builds and emits a NipartLogEntry from
reply[\x22data\x22] and loops; any other kind returns
reply[\x22data\x22]. The result pairs the sink calls emitted, in order,
with the outcome; outOfFrames stands for the blocking read the Python
code would do past the end of the given stream, and keyError for a
KeyError escaping from a subscription. -/
def NipartIpcConnection.recv : List Json → List SinkCall × RecvOutcome
  | [] => ([], RecvOutcome.outOfFrames)
  | reply :: rest =>
    match reply.lookup "kind" with
    | none => ([], RecvOutcome.keyError "kind")
    | some (.str "error") =>
      match reply.lookup "data" with
      | none => ([], RecvOutcome.keyError "data")
      | some d =>
        match NipartError.from_dict d with
        | .error key => ([], RecvOutcome.keyError key)
        | .ok e => ([], RecvOutcome.raised e)
    | some (.str "log") =>
      match reply.lookup "data" with
      | none => ([], RecvOutcome.keyError "data")
      | some d =>
        match NipartLogEntry.from_dict d with
        | .error key => ([], RecvOutcome.keyError key)
        | .ok entry =>
          match entry.emit with
          | .error e => ([], RecvOutcome.raised e)
          | .ok call =>
            let r := NipartIpcConnection.recv rest
            (call :: r.fst, r.snd)
    | some _ =>
      match reply.lookup "data" with
      | none => ([], RecvOutcome.keyError "data")
      | some d => ([], RecvOutcome.returned d)

/-- State of the receiving side of the Unix stream socket: the bytes
still to arrive, split into the chunks in which the transport delivers
them (each chunk a nonempty burst available together), followed by the
peer closing the connection once the list is exhausted. Bytes are Nat
values below 256. -/
abbrev SockChunks := List (List Nat)

/-- Python blocking socket.recv(n): returns the bytes available at the
call, up to n, without waiting for more once at least one byte is there;
returns the empty byte string when the peer has closed and nothing is
left. In this model the bytes available at a call are the head chunk:
the call takes at most n bytes from it and leaves the rest. -/
def pyRecv (st : SockChunks) (n : Nat) : List Nat × SockChunks :=
  match st with
  | [] => ([], [])
  | c :: cs =>
    (c.take n, if c.drop n = [] then cs else c.drop n :: cs)

/-- Result of the frame-reading half of NipartIpcConnection.recv
(client.py lines 33-37): either the code raises
NipartError(\x22BUG\x22, \x22Got empty reply from daemon\x22) because
socket.recv(4) returned the empty byte string, or it reaches
json.loads with the payload bytes it read. -/
inductive FrameResult where
  | emptyReply : FrameResult
  | payload (bytes : List Nat) : FrameResult

/-- int.from_bytes(bytes, byteorder=\x22big\x22). -/
def intFromBytesBE (bytes : List Nat) : Nat :=
  bytes.foldl (fun acc b => acc * 256 + b) 0

/-- length.to_bytes(4, byteorder=\x22big\x22): the 4-byte big-endian
encoding of a length below 2 to the 32. -/
def intToBytes4BE (n : Nat) : List Nat :=
  [n / 16777216 % 256, n / 65536 % 256, n / 256 % 256, n % 256]

def U32_MAX : Nat := 0xFFFFFFFF

/-- NipartIpcConnection.send (client.py lines 23-28) at the byte level:
the UTF-8 encoded payload bytes are preceded by the 4-byte big-endian
encoding of the payload length masked with U32_MAX; both sendall calls
concatenated give the bytes put on the wire. -/
def NipartIpcConnection.send (data_raw : List Nat) : List Nat :=
  intToBytes4BE (data_raw.length &&& U32_MAX) ++ data_raw

/-- The frame-reading half of NipartIpcConnection.recv (client.py lines
33-37), over the socket model: length_raw = socket.recv(4); if empty,
raise (emptyReply); else length = int.from_bytes(length_raw, big) and the
bytes handed to json.loads are socket.recv(length). Neither recv call
loops, exactly as in the source. Returns the result and the socket state
left behind. -/
def NipartIpcConnection.recvRaw (st : SockChunks) : FrameResult × SockChunks :=
  let r1 := pyRecv st 4
  if r1.fst = [] then (FrameResult.emptyReply, r1.snd)
  else
    let length := intFromBytesBE r1.fst
    let r2 := pyRecv r1.snd length
    (FrameResult.payload r2.fst, r2.snd)

/-- NipartstateApplyOption (nmstate/state_option.py lines 31-37): holds
version and no_verify, where the constructor derives no_verify as the
negation of the verify_change argument. -/
structure NipartstateApplyOption where
  version : Int
  no_verify : Bool

/-- The constructor NipartstateApplyOption.__init__(version,
verify_change): self.no_verify = not verify_change. -/
def NipartstateApplyOption.ofArgs (version : Int) (verify_change : Bool) :
    NipartstateApplyOption :=
  ⟨version, !verify_change⟩

/-- NipartstateApplyOption.to_dict: the object with the keys version and
no-verify, in that insertion order. -/
def NipartstateApplyOption.to_dict (o : NipartstateApplyOption) : Json :=
  Json.obj [("version", Json.num o.version), ("no-verify", Json.bool o.no_verify)]

/-- NipartCmdApplyNetworkState.to_json (cmd.py lines 43-54), at the JSON
value level (json.dumps serializes this value): the envelope with kind
apply-network-state and data the object pairing, under the kind string as
key, the two-element sequence of the desired state and the option
dictionary (a Python tuple, serialized as a JSON array). -/
def NipartCmdApplyNetworkState.to_json (desired_state : Json)
    (opt : NipartstateApplyOption) : Json :=
  Json.obj
    [("kind", Json.str "apply-network-state"),
     ("data", Json.obj
       [("apply-network-state", Json.arr [desired_state, opt.to_dict])])]

/-- The five log level strings the match in NipartLogEntry.emit
recognizes. -/
def recognizedLevelStrings : List String :=
  ["trace", "debug", "info", "warn", "error"]

/-- The recognized levels as JSON values, the form they take in a decoded
log entry. -/
def recognizedLevels : List Json :=
  recognizedLevelStrings.map Json.str

/-- The reply envelope carrying a log entry: kind log and the data object
with the source, level and message fields of the entry. -/
def logFrame (e : NipartLogEntry) : Json :=
  Json.obj
    [("kind", Json.str "log"),
     ("data", Json.obj
       [("source", e.source), ("level", e.level), ("message", e.message)])]

/-- The sink call NipartLogEntry.emit makes on an entry whose level is
recognized (the default branch value is arbitrary and never reached under
that hypothesis). -/
def sinkCallOf (e : NipartLogEntry) : SinkCall :=
  match e.level with
  | .str "trace" => ⟨Severity.debug, e.message, e.source⟩
  | .str "debug" => ⟨Severity.debug, e.message, e.source⟩
  | .str "info" => ⟨Severity.info, e.message, e.source⟩
  | .str "warn" => ⟨Severity.info, e.message, e.source⟩
  | .str "error" => ⟨Severity.error, e.message, e.source⟩
  | _ => ⟨Severity.debug, e.message, e.source⟩

lemma emit_recognized (e : NipartLogEntry) (h : e.level ∈ recognizedLevels) :
    e.emit = Except.ok (sinkCallOf e) := by
  obtain ⟨s, l, m⟩ := e
  simp only [recognizedLevels, recognizedLevelStrings, List.map_cons,
    List.map_nil, List.mem_cons, List.not_mem_nil, or_false] at h
  rcases h with h | h | h | h | h <;> simp_all <;> rfl

lemma recv_cons_log (e : NipartLogEntry) (rest : List Json)
    (h : e.level ∈ recognizedLevels) :
    NipartIpcConnection.recv (logFrame e :: rest) =
      (sinkCallOf e :: (NipartIpcConnection.recv rest).fst,
       (NipartIpcConnection.recv rest).snd) := by
  have hemit := emit_recognized e h
  simp [NipartIpcConnection.recv, logFrame, Json.lookup,
    NipartLogEntry.from_dict, hemit]

lemma recv_cons_error (f : Json) (d : Json) (e : NipartError)
    (rest : List Json)
    (hk : f.lookup "kind" = some (Json.str "error"))
    (hd : f.lookup "data" = some d)
    (hfd : NipartError.from_dict d = Except.ok e) :
    NipartIpcConnection.recv (f :: rest) = ([], RecvOutcome.raised e) := by
  simp [NipartIpcConnection.recv, hk, hd, hfd]

lemma recv_cons_other (f : Json) (k d : Json) (rest : List Json)
    (hk : f.lookup "kind" = some k)
    (hke : k ≠ Json.str "error") (hkl : k ≠ Json.str "log")
    (hd : f.lookup "data" = some d) :
    NipartIpcConnection.recv (f :: rest) = ([], RecvOutcome.returned d) := by
  unfold NipartIpcConnection.recv
  rw [hk]
  split
  · rename_i heq; exact absurd heq (by simp)
  · rename_i heq
    exact absurd (Option.some.inj heq) hke
  · rename_i heq
    exact absurd (Option.some.inj heq) hkl
  · rw [hd]

/-- C1: for every reply stream of K (K ≥ 0) log frames, each carrying an
entry with a recognized level, followed by one frame whose kind is
neither error nor log, NipartIpcConnection.recv emits exactly the K log
entries to the log sink, in arrival order, and returns the data field of
the final frame; K = 0 included. -/
theorem recv_log_transparency (entries : List NipartLogEntry) (final : Json)
    (k d : Json)
    (hlv : ∀ e ∈ entries, e.level ∈ recognizedLevels)
    (hk : final.lookup "kind" = some k)
    (hke : k ≠ Json.str "error") (hkl : k ≠ Json.str "log")
    (hd : final.lookup "data" = some d) :
    NipartIpcConnection.recv (entries.map logFrame ++ [final]) =
      (entries.map sinkCallOf, RecvOutcome.returned d) := by
  induction entries with
  | nil =>
    simpa using recv_cons_other final k d [] hk hke hkl hd
  | cons e es ih =>
    have he : e.level ∈ recognizedLevels := hlv e (by simp)
    have hes : ∀ x ∈ es, x.level ∈ recognizedLevels :=
      fun x hx => hlv x (by simp [hx])
    rw [List.map_cons, List.cons_append, recv_cons_log e _ he, ih hes]
    simp

theorem recv_log_transparency_witness :
    ((⟨Json.str "nipart", Json.str "info", Json.str "hello"⟩ :
        NipartLogEntry).level ∈ recognizedLevels) ∧
    NipartIpcConnection.recv
      ([⟨Json.str "nipart", Json.str "info", Json.str "hello"⟩].map logFrame ++
        [Json.obj [("kind", Json.str "ping"), ("data", Json.str "pong")]]) =
      ([⟨Severity.info, Json.str "hello", Json.str "nipart"⟩],
        RecvOutcome.returned (Json.str "pong")) :=
  ⟨by simp [recognizedLevels, recognizedLevelStrings],
   recv_log_transparency
     [⟨Json.str "nipart", Json.str "info", Json.str "hello"⟩]
     (Json.obj [("kind", Json.str "ping"), ("data", Json.str "pong")])
     (Json.str "ping") (Json.str "pong")
     (by intro e he; simp only [List.mem_singleton] at he; subst he
         simp [recognizedLevels, recognizedLevelStrings])
     rfl (by simp) (by simp) rfl⟩

/-- C2: for every reply stream of any number of log frames (each carrying
an entry with a recognized level) followed by a frame of kind error whose
data parses under NipartError.from_dict, NipartIpcConnection.recv raises
exactly that typed error, and the result does not depend on any frames
after the error frame: no further frames are read. -/
theorem recv_error_precedence (entries : List NipartLogEntry)
    (errFrame : Json) (rest : List Json) (d : Json) (e : NipartError)
    (hlv : ∀ x ∈ entries, x.level ∈ recognizedLevels)
    (hk : errFrame.lookup "kind" = some (Json.str "error"))
    (hd : errFrame.lookup "data" = some d)
    (hfd : NipartError.from_dict d = Except.ok e) :
    NipartIpcConnection.recv (entries.map logFrame ++ errFrame :: rest) =
      (entries.map sinkCallOf, RecvOutcome.raised e) := by
  induction entries with
  | nil =>
    simpa using recv_cons_error errFrame d e rest hk hd hfd
  | cons x xs ih =>
    have hx : x.level ∈ recognizedLevels := hlv x (by simp)
    have hxs : ∀ y ∈ xs, y.level ∈ recognizedLevels :=
      fun y hy => hlv y (by simp [hy])
    rw [List.map_cons, List.cons_append, recv_cons_log x _ hx, ih hxs]
    simp

theorem recv_error_precedence_witness :
    ((⟨Json.str "nipart", Json.str "warn", Json.str "careful"⟩ :
        NipartLogEntry).level ∈ recognizedLevels) ∧
    NipartError.from_dict
        (Json.obj [("kind", Json.str "invalid-argument"),
                   ("msg", Json.str "bad iface")]) =
      Except.ok ⟨true, Json.str "invalid-argument", Json.str "bad iface"⟩ ∧
    NipartIpcConnection.recv
      ([⟨Json.str "nipart", Json.str "warn", Json.str "careful"⟩].map logFrame ++
        Json.obj [("kind", Json.str "error"),
                  ("data", Json.obj [("kind", Json.str "invalid-argument"),
                                     ("msg", Json.str "bad iface")])] ::
        [Json.obj [("kind", Json.str "ping"), ("data", Json.str "pong")]]) =
      ([⟨Severity.info, Json.str "careful", Json.str "nipart"⟩],
        RecvOutcome.raised
          ⟨true, Json.str "invalid-argument", Json.str "bad iface"⟩) :=
  ⟨by simp [recognizedLevels, recognizedLevelStrings], rfl,
   recv_error_precedence
     [⟨Json.str "nipart", Json.str "warn", Json.str "careful"⟩]
     (Json.obj [("kind", Json.str "error"),
                ("data", Json.obj [("kind", Json.str "invalid-argument"),
                                   ("msg", Json.str "bad iface")])])
     [Json.obj [("kind", Json.str "ping"), ("data", Json.str "pong")]]
     (Json.obj [("kind", Json.str "invalid-argument"),
                ("msg", Json.str "bad iface")])
     ⟨true, Json.str "invalid-argument", Json.str "bad iface"⟩
     (by intro x hx; simp only [List.mem_singleton] at hx; subst hx
         simp [recognizedLevels, recognizedLevelStrings])
     rfl rfl rfl⟩

/-- C5: a received envelope whose kind field is present but is neither
the string error nor the string log (any other JSON value, including
kinds unknown to the client) makes NipartIpcConnection.recv return the
data field of that envelope verbatim as the successful result, whatever
the shape of that data, emitting nothing and reading no further
frames. -/
theorem recv_unknown_kind_passthrough (f : Json) (k d : Json)
    (rest : List Json)
    (hk : f.lookup "kind" = some k)
    (hke : k ≠ Json.str "error") (hkl : k ≠ Json.str "log")
    (hd : f.lookup "data" = some d) :
    NipartIpcConnection.recv (f :: rest) = ([], RecvOutcome.returned d) :=
  recv_cons_other f k d rest hk hke hkl hd

theorem recv_unknown_kind_passthrough_witness :
    (Json.obj [("kind", Json.num 7),
               ("data", Json.arr [Json.null, Json.num 3])]).lookup "kind" =
      some (Json.num 7) ∧
    Json.num 7 ≠ Json.str "error" ∧
    Json.num 7 ≠ Json.str "log" ∧
    NipartIpcConnection.recv
      [Json.obj [("kind", Json.num 7),
                 ("data", Json.arr [Json.null, Json.num 3])]] =
      ([], RecvOutcome.returned (Json.arr [Json.null, Json.num 3])) :=
  ⟨rfl, by simp, by simp,
   recv_unknown_kind_passthrough
     (Json.obj [("kind", Json.num 7),
                ("data", Json.arr [Json.null, Json.num 3])])
     (Json.num 7) (Json.arr [Json.null, Json.num 3]) []
     rfl (by simp) (by simp) rfl⟩

/-- C6: for every desired state and caller-supplied verify flag, the
constructor derives no_verify as the negation of the flag, and encoding
an apply command with version 4 and verify true produces exactly the
envelope with kind apply-network-state whose data pairs the state and the
option dictionary with version 4 and no-verify false as an ordered
two-element sequence under the command-kind key. -/
theorem apply_cmd_encoding (desired_state : Json) (verify_change : Bool) :
    (NipartstateApplyOption.ofArgs 4 verify_change).no_verify =
      !verify_change ∧
    NipartCmdApplyNetworkState.to_json desired_state
        (NipartstateApplyOption.ofArgs 4 true) =
      Json.obj
        [("kind", Json.str "apply-network-state"),
         ("data", Json.obj
           [("apply-network-state",
             Json.arr
               [desired_state,
                Json.obj [("version", Json.num 4),
                          ("no-verify", Json.bool false)]])])] :=
  ⟨rfl, rfl⟩

/-- C7: for every error payload with a kind string and any msg value,
NipartError.from_dict succeeds, never failing to parse; it returns the
value-error variant exactly when the kind string is invalid-argument and
the generic variant for every other kind string, in both cases exposing
the kind and msg fields unchanged. -/
theorem from_dict_taxonomy (k : String) (m : Json) :
    NipartError.from_dict
        (Json.obj [("kind", Json.str k), ("msg", m)]) =
      Except.ok ⟨decide (k = "invalid-argument"), Json.str k, m⟩ := by
  have h1 : (Json.obj [("kind", Json.str k), ("msg", m)]).lookup "kind" =
      some (Json.str k) := by simp [Json.lookup]
  have h2 : (Json.obj [("kind", Json.str k), ("msg", m)]).lookup "msg" =
      some m := by simp [Json.lookup]
  simp only [NipartError.from_dict, h1, h2]
  by_cases hk : k = "invalid-argument"
  · subst hk; simp
  · split
    · rename_i heq
      exact absurd (Json.str.inj heq) hk
    · simp [hk]

/-- C9: when a log entry carries a level string outside the recognized
set, NipartLogEntry.emit raises the internal-bug error: the generic
NipartError (not the value-error variant) with the locally built kind Bug
and an unknown-log-level message, a value distinct from any daemon
payload routed through NipartError.from_dict by its kind; and for every
recognized level string emit succeeds with a sink call, raising
nothing. -/
theorem emit_unknown_level_is_bug (src msg : Json) (lvl : String)
    (h : lvl ∉ recognizedLevelStrings) :
    NipartLogEntry.emit ⟨src, Json.str lvl, msg⟩ =
      Except.error ⟨false, Json.str "Bug",
        Json.str ("unknown log level " ++ lvl)⟩ ∧
    ∀ l ∈ recognizedLevelStrings,
      ∃ call, NipartLogEntry.emit ⟨src, Json.str l, msg⟩ =
        Except.ok call := by
  simp only [recognizedLevelStrings, List.mem_cons, List.not_mem_nil,
    or_false, not_or] at h
  obtain ⟨h1, h2, h3, h4, h5⟩ := h
  constructor
  · unfold NipartLogEntry.emit
    split
    · rename_i heq; exact absurd (Json.str.inj heq) h1
    · rename_i heq; exact absurd (Json.str.inj heq) h2
    · rename_i heq; exact absurd (Json.str.inj heq) h3
    · rename_i heq; exact absurd (Json.str.inj heq) h4
    · rename_i heq; exact absurd (Json.str.inj heq) h5
    · rfl
  · intro l hl
    simp only [recognizedLevelStrings, List.mem_cons, List.not_mem_nil,
      or_false] at hl
    rcases hl with rfl | rfl | rfl | rfl | rfl
    · exact ⟨_, rfl⟩
    · exact ⟨_, rfl⟩
    · exact ⟨_, rfl⟩
    · exact ⟨_, rfl⟩
    · exact ⟨_, rfl⟩

theorem emit_unknown_level_is_bug_witness :
    ("fatal" ∉ recognizedLevelStrings) ∧
    (NipartLogEntry.emit ⟨Json.str "nipart", Json.str "fatal",
        Json.str "boom"⟩ =
      Except.error ⟨false, Json.str "Bug",
        Json.str ("unknown log level " ++ "fatal")⟩ ∧
     ∀ l ∈ recognizedLevelStrings,
       ∃ call,
         NipartLogEntry.emit ⟨Json.str "nipart", Json.str l,
           Json.str "boom"⟩ = Except.ok call) :=
  ⟨by decide,
   emit_unknown_level_is_bug (Json.str "nipart") (Json.str "boom") "fatal"
     (by decide)⟩

/-- C10: NipartLogEntry.emit sends the level warn to the sink at info
severity and the level trace at debug severity, so two entries differing
only in the levels warn and info, or only in the levels trace and debug,
make identical sink calls: the five wire levels collapse to the three
sink severities debug, info and error. -/
theorem emit_level_collapse (src msg : Json) :
    NipartLogEntry.emit ⟨src, Json.str "warn", msg⟩ =
      Except.ok ⟨Severity.info, msg, src⟩ ∧
    NipartLogEntry.emit ⟨src, Json.str "trace", msg⟩ =
      Except.ok ⟨Severity.debug, msg, src⟩ ∧
    NipartLogEntry.emit ⟨src, Json.str "warn", msg⟩ =
      NipartLogEntry.emit ⟨src, Json.str "info", msg⟩ ∧
    NipartLogEntry.emit ⟨src, Json.str "trace", msg⟩ =
      NipartLogEntry.emit ⟨src, Json.str "debug", msg⟩ ∧
    NipartLogEntry.emit ⟨src, Json.str "error", msg⟩ =
      Except.ok ⟨Severity.error, msg, src⟩ :=
  ⟨rfl, rfl, rfl, rfl, rfl⟩

lemma intFromBytesBE_intToBytes4BE (n : Nat) (h : n < 4294967296) :
    intFromBytesBE (intToBytes4BE n) = n := by
  simp only [intFromBytesBE, intToBytes4BE, List.foldl]
  omega

/-- C8: for every payload byte string of length at most U32_MAX, the
empty one included, framing it with NipartIpcConnection.send and then
running the frame-reading half of NipartIpcConnection.recv on the
resulting wire bytes, delivered whole, reproduces the payload exactly and
consumes the frame: decoding is a left inverse of encoding. -/
theorem frame_roundtrip (payload : List Nat)
    (h : payload.length ≤ U32_MAX) :
    NipartIpcConnection.recvRaw [NipartIpcConnection.send payload] =
      (FrameResult.payload payload, []) := by
  have hlt : payload.length < 2 ^ 32 := by
    simp only [U32_MAX] at h; omega
  have hmask : payload.length &&& U32_MAX = payload.length := by
    rw [show U32_MAX = 2 ^ 32 - 1 by norm_num [U32_MAX],
      Nat.and_pow_two_sub_one_eq_mod payload.length 32]
    exact Nat.mod_eq_of_lt hlt
  have hinv : intFromBytesBE (intToBytes4BE payload.length) =
      payload.length := intFromBytesBE_intToBytes4BE payload.length (by omega)
  cases payload with
  | nil => rfl
  | cons q qs =>
    simp only [NipartIpcConnection.send, hmask, NipartIpcConnection.recvRaw,
      intToBytes4BE, pyRecv, List.cons_append, List.nil_append,
      List.take_succ_cons, List.take_zero, List.drop_succ_cons,
      List.drop_zero, List.cons_ne_nil, ite_false, reduceIte]
    have hinv2 : intFromBytesBE
        [(q :: qs).length / 16777216 % 256, (q :: qs).length / 65536 % 256,
         (q :: qs).length / 256 % 256, (q :: qs).length % 256] =
        (q :: qs).length := by
      simpa only [intToBytes4BE] using hinv
    rw [hinv2]
    simp

theorem frame_roundtrip_witness :
    (([123, 125] : List Nat).length ≤ U32_MAX) ∧
    NipartIpcConnection.recvRaw [NipartIpcConnection.send [123, 125]] =
      (FrameResult.payload [123, 125], []) :=
  ⟨by decide, frame_roundtrip [123, 125] (by decide)⟩

/-- C3: when the peer delivers only 2 of the 4 length-prefix bytes (here
the bytes 0 and 16) and then closes the connection, the code does not
take its transport-error path (the emptyReply branch raising
NipartError): socket.recv(4) hands back the 2 bytes, the code
misinterprets them as the length 16, reads an empty payload from the
closed socket, and proceeds to json.loads on the empty string, which in
Python raises json.JSONDecodeError: a decode error, where the claim
requires a transport or closure error and never a decode error. -/
theorem recvRaw_truncated_length_close :
    NipartIpcConnection.recvRaw [[0, 16]] = (FrameResult.payload [], []) ∧
    FrameResult.payload [] ≠ FrameResult.emptyReply :=
  ⟨rfl, fun hc => FrameResult.noConfusion hc⟩

/-- C4: reading a frame is not chunking-independent, because neither
socket.recv call in NipartIpcConnection.recv loops until its exact byte
count is satisfied. The same well-formed frame (length prefix 4, payload
the bytes of the word true) delivered in one chunk yields the payload,
but delivered with the length prefix split after 2 bytes yields the empty
payload (the 2 bytes 0 and 0 are misread as the length 0) and leaves the
rest of the frame unread on the socket. -/
theorem recvRaw_chunking_dependent :
    NipartIpcConnection.recvRaw [[0, 0, 0, 4] ++ [116, 114, 117, 101]] =
      (FrameResult.payload [116, 114, 117, 101], []) ∧
    NipartIpcConnection.recvRaw [[0, 0], [0, 4, 116, 114, 117, 101]] =
      (FrameResult.payload [], [[0, 4, 116, 114, 117, 101]]) ∧
    FrameResult.payload ([] : List Nat) ≠
      FrameResult.payload [116, 114, 117, 101] :=
  ⟨rfl, rfl, by simp⟩
